import Mathlib

/-
Shallow embedding of the CRI-O container server core, translated from:
  src/internal/lib/container_server.go   (state store, rehydration, registries)
  src/unnamed/part_001                   (sandbox namespace handles, pinning)
  src/cmd/crio-cr/main.go                (checkpoint/restore client commands)
External fallible operations (storage, JSON parsing, the OCI runtime, the
kernel) are modelled as oracle fields of environment records; the control
flow, state mutation and error propagation follow the Go source line by line.
-/

namespace Crio

/-- Error kinds produced by the embedded operations.  The constructor
`nonCrioContainer` models the sentinel `ErrIsNonCrioContainer` declared in
`internal/lib/container_server.go`; the other constructors tag the distinct
error returns of the Go code. -/
inductive LoadErr where
  | ioErr
  | specParseErr
  | annParseErr
  | reserveNameErr
  | sandboxNewErr
  | nsJoinErr
  | addSandboxErr
  | storeDirErr
  | timeParseErr
  | newContainerErr
  | volumesErr
  | stateFromDiskErr
  | stateToDiskErr
  | reserveLabelErr
  | idIndexErr
  | nonCrioContainer
  | missingSandboxErr
  | removePlatformErr
deriving DecidableEq, Repr

/-- Association-list rendering of a Go `map[string]string` used for the name
registrar.  Modelled from the spec: the registrar package
(`github.com/containers/libpod/pkg/registrar`) is vendored outside `src/`;
§4.1 of the spec fixes its semantics (exclusive per name, idempotent for the
same pair, release of an unreserved name is a no-op). -/
abbrev RegMap := List (String × String)

/-- Lookup of a name in the registrar map. -/
def regLookup : RegMap → String → Option String
  | [], _ => none
  | (n, i) :: rest, nm => if n = nm then some i else regLookup rest nm

/-- Modelled from the spec: `Registrar.Reserve(name, id)`.  Reserving a free
name records it; re-reserving with the identical id succeeds and leaves the
map unchanged; a different id yields the already-reserved error. -/
def regReserve (l : RegMap) (name id : String) : Except Unit RegMap :=
  match regLookup l name with
  | some id2 => if id2 = id then .ok l else .error ()
  | none => .ok ((name, id) :: l)

/-- Modelled from the spec: `Registrar.Release(name)` deletes the entry for
`name`; absent names are untouched. -/
def regRelease (l : RegMap) (name : String) : RegMap :=
  match l with
  | [] => []
  | (n, i) :: rest => if n = name then regRelease rest name else (n, i) :: regRelease rest name

/-- Association-list rendering of a Go `map[string]α` (the memory stores). -/
def mapGet {α : Type} : List (String × α) → String → Option α
  | [], _ => none
  | (k, v) :: rest, key => if k = key then some v else mapGet rest key

/-- Map update: replaces the entry for `key` or appends a fresh one. -/
def mapSet {α : Type} : List (String × α) → String → α → List (String × α)
  | [], key, v => [(key, v)]
  | (k, w) :: rest, key, v =>
    if k = key then (key, v) :: rest else (k, w) :: mapSet rest key v

/-- Map deletion, mirroring Go `delete(m, key)`. -/
def mapDelete {α : Type} : List (String × α) → String → List (String × α)
  | [], _ => []
  | (k, v) :: rest, key =>
    if k = key then mapDelete rest key else (k, v) :: mapDelete rest key

/-- Modelled from the spec: `TruncIndex.Add` (vendored `truncindex` package,
outside `src/`): stores full identifiers and refuses duplicates. -/
def idxAdd (idx : List String) (id : String) : Except Unit (List String) :=
  if id ∈ idx then .error () else .ok (id :: idx)

/-- The container attributes the verified claims depend on, from
`oci.NewContainer` in `internal/oci` (id, name and the non-owning
`sandbox_id` back-reference). -/
structure Ctr where
  id : String
  name : String
  sandbox : String
deriving DecidableEq, Repr

/-- A namespace handle, from the `Namespace` struct of
`src/unnamed/part_001`: the opaque handle (`ns`, modelled by the flag
`nsSet`), the `closed` and `initialized` records (the latter named `inited`
here) and the kind and path. -/
structure Namespace where
  nsSet : Bool
  closed : Bool
  inited : Bool
  nsType : String
  nsPath : String
deriving DecidableEq, Repr

/-- `Namespace.Path()` from `src/unnamed/part_001`: the empty string when the
opaque handle is nil, otherwise the stored path. -/
def pathOf (n : Namespace) : String :=
  if n.nsSet then n.nsPath else ""

/-- The sandbox attributes the verified claims depend on, from
`sandbox.New`: id, name, the per-sandbox container list, the infra
container, and one managed namespace handle slot per kind. -/
structure Sb where
  id : String
  name : String
  containerList : List Ctr
  infra : Option Ctr
  netns : Option Namespace
  ipcns : Option Namespace
  utsns : Option Namespace
  userns : Option Namespace
  createdSet : Bool
  stopped : Bool
  privileged : Bool
  hostNetwork : Bool
deriving DecidableEq, Repr

/-- A fresh sandbox as produced by `sandbox.New` during `LoadSandbox`:
no containers, no infra container, no namespace handles. -/
def newSb (id name : String) : Sb :=
  { id := id, name := name, containerList := [], infra := none,
    netns := none, ipcns := none, utsns := none, userns := none,
    createdSet := false, stopped := false,
    privileged := false, hostNetwork := false }

/-- The fields of `ContainerServer` and `containerServerState` that the
verified claims touch (`internal/lib/container_server.go`): both name
registrars, both truncated-ID indices, and the three entity maps plus the
MCS refcount map. -/
structure ServerState where
  ctrNameIndex : RegMap
  podNameIndex : RegMap
  ctrIDIndex : List String
  podIDIndex : List String
  containers : List (String × Ctr)
  infraContainers : List (String × Ctr)
  sandboxes : List (String × Sb)
  processLevels : List (String × Nat)
deriving DecidableEq, Repr

/-- The empty server state built by `New` in `container_server.go`. -/
def emptyState : ServerState :=
  { ctrNameIndex := [], podNameIndex := [], ctrIDIndex := [], podIDIndex := [],
    containers := [], infraContainers := [], sandboxes := [], processLevels := [] }

/-- `ContainerManagerCRIO` from `container_server.go`. -/
def ContainerManagerCRIO : String := "cri-o"

/-- `ReserveContainerName` from `container_server.go`: delegates to the
container name registrar and surfaces its error. -/
def ReserveContainerName (st : ServerState) (id name : String) :
    Except LoadErr (ServerState × String) :=
  match regReserve st.ctrNameIndex name id with
  | .error _ => .error .reserveNameErr
  | .ok l => .ok ({ st with ctrNameIndex := l }, name)

/-- `ReleaseContainerName` from `container_server.go`. -/
def ReleaseContainerName (st : ServerState) (name : String) : ServerState :=
  { st with ctrNameIndex := regRelease st.ctrNameIndex name }

/-- `ReservePodName` from `container_server.go`. -/
def ReservePodName (st : ServerState) (id name : String) :
    Except LoadErr (ServerState × String) :=
  match regReserve st.podNameIndex name id with
  | .error _ => .error .reserveNameErr
  | .ok l => .ok ({ st with podNameIndex := l }, name)

/-- `ReleasePodName` from `container_server.go`. -/
def ReleasePodName (st : ServerState) (name : String) : ServerState :=
  { st with podNameIndex := regRelease st.podNameIndex name }

/-- `AddContainer` from `container_server.go`: looks up the owning sandbox;
when it is absent the function returns with no mutation and no error;
otherwise it appends the container to the sandbox's list (the sandbox side
is `Sandbox.AddContainer`, modelled from the spec because `sandbox.go` is
outside `src/`) and stores the container in the containers map. -/
def AddContainer (st : ServerState) (ctr : Ctr) : ServerState :=
  match mapGet st.sandboxes ctr.sandbox with
  | none => st
  | some sb =>
    { st with
      sandboxes := mapSet st.sandboxes ctr.sandbox
        { sb with containerList := sb.containerList ++ [ctr] },
      containers := mapSet st.containers ctr.id ctr }

/-- `RemoveContainer` from `container_server.go`: when the owning sandbox is
absent the state is untouched; otherwise the container is removed from the
sandbox's list (`Sandbox.RemoveContainer`, modelled from the spec) and
deleted from the containers map. -/
def RemoveContainer (st : ServerState) (ctr : Ctr) : ServerState :=
  match mapGet st.sandboxes ctr.sandbox with
  | none => st
  | some sb =>
    { st with
      sandboxes := mapSet st.sandboxes ctr.sandbox
        { sb with containerList := sb.containerList.filter (fun c => c.id ≠ ctr.id) },
      containers := mapDelete st.containers ctr.id }

/-- `AddSandbox` from `container_server.go`: stores the sandbox in the map
and then runs `addSandboxPlatform` under the state lock; the platform step
is repository code outside `src/`, modelled from the spec as an oracle
(`platformOk`).  Note the sandbox is stored before the platform step runs. -/
def AddSandbox (platformOk : Bool) (st : ServerState) (sb : Sb) :
    ServerState × Option LoadErr :=
  let st1 := { st with sandboxes := mapSet st.sandboxes sb.id sb }
  if platformOk then (st1, none) else (st1, some .addSandboxErr)

/-- `RemoveSandbox` from `container_server.go`: a missing id is a silent
no-op; otherwise `removeSandboxPlatform` runs first (repository code outside
`src/`, modelled from the spec as the oracle `platformOk`; §4.2: platform
cleanup precedes map deletion) and only on its success is the sandbox
deleted from the map. -/
def RemoveSandbox (platformOk : Bool) (st : ServerState) (id : String) :
    ServerState × Option LoadErr :=
  match mapGet st.sandboxes id with
  | none => (st, none)
  | some _ =>
    if platformOk then ({ st with sandboxes := mapDelete st.sandboxes id }, none)
    else (st, some .removePlatformErr)

/-- `listContainers` from `container_server.go`: the snapshot of the
containers map values. -/
def listContainers (st : ServerState) : List Ctr :=
  st.containers.map (fun p => p.2)

/-- The inner loop of `ListContainers`: for one container, one output copy
per filter that matches it, in filter order. -/
def applyFilters (filters : List (Ctr → Bool)) (c : Ctr) : List Ctr :=
  match filters with
  | [] => []
  | f :: rest => if f c then c :: applyFilters rest c else applyFilters rest c

/-- The outer loop of `ListContainers` over the stored containers. -/
def filterLoop (filters : List (Ctr → Bool)) : List Ctr → List Ctr
  | [] => []
  | c :: rest => applyFilters filters c ++ filterLoop filters rest

/-- `ListContainers` from `container_server.go`: with no filters the whole
snapshot is returned; otherwise each container is appended once per filter
that matches it. -/
def ListContainers (st : ServerState) (filters : List (Ctr → Bool)) : List Ctr :=
  if filters.isEmpty then listContainers st
  else filterLoop filters (listContainers st)

/-- Occurrence count of a container in a list (the multiplicity the C10
claim speaks about). -/
def ctrCount (x : Ctr) : List Ctr → Nat
  | [] => 0
  | c :: rest => (if c = x then 1 else 0) + ctrCount x rest

/-- Number of filters of a list that match a given container. -/
def matchCount (c : Ctr) : List (Ctr → Bool) → Nat
  | [] => 0
  | f :: rest => (if f c then 1 else 0) + matchCount c rest

/-- Concrete sandbox used to instantiate hypothesis-bearing theorems. -/
def sbW : Sb := newSb "sb1" "pod-a"

/-- Concrete server state holding the single sandbox `sbW`. -/
def stSb : ServerState := { emptyState with sandboxes := [("sb1", sbW)] }

/-- Concrete container owned by the sandbox `sb1`. -/
def cW : Ctr := { id := "c1", name := "n1", sandbox := "sb1" }

/-- Concrete server state holding the single container `cW`. -/
def stC : ServerState := { emptyState with containers := [("c1", cW)] }

/-- Concrete filter list: both filters match `cW`. -/
def fsW : List (Ctr → Bool) := [fun _ => true, fun c => c.id = "c1"]

/-- Filesystem effects attempted by `Namespace.Remove`
(src/unnamed/part_001): closing the handle, lazily unmounting the path,
deleting the path. -/
inductive NsAction where
  | closeFd
  | unmountPath (p : String)
  | removePath (p : String)
deriving DecidableEq, Repr

/-- The three failure points of `Namespace.Remove`. -/
inductive RmErr where
  | closeFailed
  | unmountFailed
  | removeFailed
deriving DecidableEq, Repr

/-- Oracle for the kernel operations `Namespace.Remove` invokes: the
handle's `Close`, `utils.Unmount` (repository code outside src/, a lazy
unmount per the spec) and `os.RemoveAll`. -/
structure RmWorld where
  closeOk : Bool
  unmountOk : String → Bool
  removeAllOk : String → Bool

/-- `Namespace.Close` from src/unnamed/part_001: a nil handle closes
trivially, otherwise the handle's own close result. -/
def nsClose (w : RmWorld) (n : Namespace) : Bool :=
  if n.nsSet then w.closeOk else true

/-- The tail of `Namespace.Remove` after a successful `Close`, with
`closed` already recorded: unmount the path, then — when the path is
non-empty — delete it.  The third component lists the attempted effects. -/
def nsRemoveAfterClose (w : RmWorld) (n : Namespace) (acts : List NsAction) :
    Namespace × Option RmErr × List NsAction :=
  if w.unmountOk (pathOf n) = false then
    (n, some .unmountFailed, acts ++ [.unmountPath (pathOf n)])
  else if pathOf n ≠ "" then
    if w.removeAllOk (pathOf n) = false then
      (n, some .removeFailed,
        acts ++ [.unmountPath (pathOf n), .removePath (pathOf n)])
    else
      (n, none, acts ++ [.unmountPath (pathOf n), .removePath (pathOf n)])
  else (n, none, acts ++ [.unmountPath (pathOf n)])

/-- `Namespace.Remove` from src/unnamed/part_001: an already-closed handle
returns nil at once with no effects; otherwise close the handle (an error
leaves `closed` unset), record `closed`, lazily unmount the path, and
delete the non-empty path. -/
def nsRemove (w : RmWorld) (n : Namespace) :
    Namespace × Option RmErr × List NsAction :=
  if n.closed then (n, none, [])
  else if nsClose w n = false then
    (n, some .closeFailed, if n.nsSet then [.closeFd] else [])
  else
    nsRemoveAfterClose w { n with closed := true }
      (if n.nsSet then [.closeFd] else [])

/-- Error kinds of `pinNamespaces` (src/unnamed/part_001). -/
inductive PinErr where
  | invalidType
  | cleanupFailed
  | pinFailed
  | getNSFailed
deriving DecidableEq, Repr

/-- Oracle for `pinNamespaces`: the helper binary's exit status, the
per-path lazy-unmount results during cleanup, and the `GetNS` open
results. -/
structure PinWorld where
  helperOk : Bool
  unmountOk : String → Bool
  getNSOk : String → Bool

/-- The `typeToArg` map of `pinNamespaces`. -/
def typeToArg (t : String) : Option String :=
  if t = "ipc" then some "-i"
  else if t = "uts" then some "-u"
  else if t = "user" then some "-U"
  else if t = "net" then some "-n"
  else none

/-- The would-be pinned path `<dir>/<kind>ns/<fname>` built by
`pinNamespaces`. -/
def pinPath (dir fname t : String) : String :=
  dir ++ "/" ++ t ++ "ns/" ++ fname

/-- The first loop of `pinNamespaces`: accumulate the would-be
(path, kind) records, returning the invalid-type error at the first
unknown kind (before the helper is spawned). -/
def buildMounted (dir fname : String) :
    List String → Except PinErr (List (String × String))
  | [] => .ok []
  | t :: rest =>
    match typeToArg t with
    | none => .error .invalidType
    | some _ =>
      match buildMounted dir fname rest with
      | .error e => .error e
      | .ok r => .ok ((pinPath dir fname t, t) :: r)

/-- The `GetNS` loop of `pinNamespaces` on the mounted records; the first
open failure is returned (with no cleanup, as in the source). -/
def getNSAll (w : PinWorld) :
    List (String × String) → Except PinErr (List Namespace)
  | [] => .ok []
  | (p, t) :: rest =>
    if w.getNSOk p = false then .error .getNSFailed
    else
      match getNSAll w rest with
      | .error e => .error e
      | .ok l =>
        .ok ({ nsSet := true, closed := false, inited := false,
               nsType := t, nsPath := p } :: l)

/-- `pinNamespaces` from src/unnamed/part_001.  When the helper fails,
every would-be path is lazily unmounted; if any unmount fails the
cleanup error is returned, otherwise the pin error.  The second component
records the unmount attempts performed. -/
def pinNamespaces (w : PinWorld) (dir fname : String) (nsTypes : List String) :
    Except PinErr (List Namespace) × List String :=
  match buildMounted dir fname nsTypes with
  | .error e => (.error e, [])
  | .ok mounted =>
    if w.helperOk = false then
      if (mounted.map (fun m => m.1)).filter (fun p => w.unmountOk p = false) ≠ [] then
        (.error .cleanupFailed, mounted.map (fun m => m.1))
      else
        (.error .pinFailed, mounted.map (fun m => m.1))
    else
      (getNSAll w mounted, [])

/-- World oracle for joining namespace paths: the `IsNSorErr` NSFS check,
the `GetNS` open result, and — consulted only by claim statements, never
by the code — the actual kind of the namespace behind a path. -/
structure NsWorld where
  isNSorErr : String → Bool
  getNSOk : String → Bool
  kindOf : String → String

/-- `getNamespace` from src/unnamed/part_001: verify the path is a
namespace (`IsNSorErr`), open it (`GetNS`), and return a handle whose
`nsType` is left at its zero value — the expected kind is never passed in
nor checked. -/
def getNamespace (w : NsWorld) (nsPath : String) : Option Namespace :=
  if w.isNSorErr nsPath = false then none
  else if w.getNSOk nsPath = false then none
  else some { nsSet := true, closed := false, inited := false,
              nsType := "", nsPath := nsPath }

/-- Modelled from the spec: the per-kind join wrapper of `sandbox.go`
(outside src/): fail when the sandbox already holds a managed handle of
this kind, otherwise verify and record the handle via `getNamespace`. -/
def nsJoin (w : NsWorld) (cur : Option Namespace) (p : String) :
    Except LoadErr Namespace :=
  match cur with
  | some _ => .error .nsJoinErr
  | none =>
    match getNamespace w p with
    | none => .error .nsJoinErr
    | some ns => .ok ns

/-- `NetNsJoin` (modelled from the spec, via `nsJoin` and the embedded
`getNamespace`). -/
def netNsJoin (w : NsWorld) (sb : Sb) (p : String) : Except LoadErr Sb :=
  match nsJoin w sb.netns p with
  | .error e => .error e
  | .ok ns => .ok { sb with netns := some ns }

/-- `IpcNsJoin` (modelled from the spec, via `nsJoin`). -/
def ipcNsJoin (w : NsWorld) (sb : Sb) (p : String) : Except LoadErr Sb :=
  match nsJoin w sb.ipcns p with
  | .error e => .error e
  | .ok ns => .ok { sb with ipcns := some ns }

/-- `UtsNsJoin` (modelled from the spec, via `nsJoin`). -/
def utsNsJoin (w : NsWorld) (sb : Sb) (p : String) : Except LoadErr Sb :=
  match nsJoin w sb.utsns p with
  | .error e => .error e
  | .ok ns => .ok { sb with utsns := some ns }

/-- `UserNsJoin` (modelled from the spec, via `nsJoin`). -/
def userNsJoin (w : NsWorld) (sb : Sb) (p : String) : Except LoadErr Sb :=
  match nsJoin w sb.userns p with
  | .error e => .error e
  | .ok ns => .ok { sb with userns := some ns }

/-- Concrete world in which every path is a uts namespace that opens
fine. -/
def wUts : NsWorld :=
  { isNSorErr := fun _ => true, getNSOk := fun _ => true, kindOf := fun _ => "uts" }

/-- Fresh sandbox with no namespace handles. -/
def sbFresh : Sb := newSb "sb2" "pod-b"

/-- Sandbox already holding a managed network-namespace handle. -/
def sbWithNet : Sb :=
  { sbFresh with netns := some { nsSet := true, closed := false, inited := true,
                                 nsType := "net", nsPath := "/var/run/netns/x" } }

/-- The per-ID loop of the checkpoint client command
(`cmd/crio-cr/main.go`): each successful ID is printed immediately; the
first failure aborts the loop and its error becomes the process's
non-zero exit.  First component: IDs written to the output stream in
order; second component: `true` iff the process exits 0. -/
def checkpointRun (ok : String → Bool) : List String → List String × Bool
  | [] => ([], true)
  | i :: rest =>
    if ok i then
      match checkpointRun ok rest with
      | (out, s) => (i :: out, s)
    else ([], false)

/-- The response-collecting loop of the restore client command: responses
are accumulated; the first failure returns its error immediately,
abandoning the accumulated responses. -/
def restoreCollect (ok : String → Bool) :
    List String → Except Unit (List String)
  | [] => .ok []
  | i :: rest =>
    if ok i then
      match restoreCollect ok rest with
      | .error e => .error e
      | .ok r => .ok (i :: r)
    else .error ()

/-- The restore client command (`cmd/crio-cr/main.go`): the collected
responses are marshalled and printed only after the loop ends, so on a
failure nothing has been written; the error becomes the non-zero exit. -/
def restoreRun (ok : String → Bool) (ids : List String) : List String × Bool :=
  match restoreCollect ok ids with
  | .ok rs => (rs, true)
  | .error _ => ([], false)

/-- Concrete success predicate: only the ID "a" succeeds. -/
def okA : String → Bool := fun i => i = "a"

/-- Concrete remove world where every operation succeeds. -/
def rmAllOk : RmWorld :=
  { closeOk := true, unmountOk := fun _ => true, removeAllOk := fun _ => true }

/-- Concrete managed pinned namespace handle. -/
def nsManaged : Namespace :=
  { nsSet := true, closed := false, inited := true,
    nsType := "net", nsPath := "/var/run/netns/x" }

/-- Concrete pin world in which the helper fails and all unmounts
succeed. -/
def pinHelperFails : PinWorld :=
  { helperOk := false, unmountOk := fun _ => true, getNSOk := fun _ => true }

/-- `isTrue` from container_server.go. -/
def isTrue (s : String) : Bool := s = "true"

/-- The fields of the parsed `config.json` OCI spec that `LoadSandbox` and
`LoadContainer` read.  Raw string values are carried verbatim; the `…Ok`
Booleans are parse oracles for the JSON-encoded values whose decoding is
library code outside src/ (a map access of a missing key yields the empty
string in Go, which those decoders reject — both outcomes are the oracle's
false case). -/
structure SpecCfg where
  manager : Option String
  labelsOk : Bool
  name : String
  metadataOk : Bool
  kubeAnnOk : Bool
  portMappingsOk : Bool
  nsOptsOk : Bool
  privilegedAnn : String
  hostNetworkAnn : String
  namespaces : List (String × String)
  sandboxID : String
  containerID : String
  containerName : String
  createdOk : Bool
  volumesAnnEmpty : Bool
  volumesOk : Bool
  ttyAnn : String
  stdinAnn : String
  stdinOnceAnn : String

/-- The manager-marker test of `LoadContainer`
(container_server.go:347): true exactly when the marker is present and
differs from `ContainerManagerCRIO`; an absent marker tests false. -/
def isForeignManager (m : SpecCfg) : Bool :=
  match m.manager with
  | some v => v ≠ ContainerManagerCRIO
  | none => false

/-- Oracles for the external calls the two load functions make: reading
and unmarshalling `config.json`, the storage directories, constructor
validation, state (re)read/write, the SELinux label reservation, the two
platform steps, and the namespace world for the re-joins. -/
structure LoadEnv where
  readConfigOk : Bool
  specParse : Option SpecCfg
  manageNSLifecycle : Bool
  ns : NsWorld
  sandboxNewOk : Bool
  addSandboxPlatformOk : Bool
  removeSandboxPlatformOk : Bool
  runDirOk : Bool
  ctrDirOk : Bool
  newContainerOk : Bool
  stateFromDiskOk : Bool
  stateToDiskOk : Bool
  reserveLabelOk : Bool

/-- `configNsPath` from container_server.go: scan the spec's Linux
namespace list for the requested type; a missing entry or an empty path
is an error (the caller then skips the join). -/
def configNsPath : List (String × String) → String → Except Unit String
  | [], _ => .error ()
  | (ty, p) :: rest, nsType =>
    if ty ≠ nsType then configNsPath rest nsType
    else if p = "" then .error ()
    else .ok p

/-- One kind of the re-join block of `LoadSandbox`: when `configNsPath`
finds a pinned path the join runs and its error aborts the load; a
missing path is silently skipped. -/
def joinIfPinned (nss : List (String × String)) (nsType : String)
    (join : Sb → String → Except LoadErr Sb) (sb : Sb) : Except LoadErr Sb :=
  match configNsPath nss nsType with
  | .error _ => .ok sb
  | .ok p => join sb p

/-- Sequential error propagation between two fallible steps (the Go
early-return between consecutive join attempts). -/
def exceptChain (r : Except LoadErr Sb) (f : Sb → Except LoadErr Sb) :
    Except LoadErr Sb :=
  match r with
  | .error e => .error e
  | .ok sb => f sb

/-- The namespace re-join block of `LoadSandbox`
(container_server.go:207-232), run only when `ManageNSLifecycle` is set;
the runtime-spec type strings are "network", "ipc", "uts", "user", tried
in that order with early return on a join error. -/
def sandboxJoins (env : LoadEnv) (m : SpecCfg) (sb : Sb) : Except LoadErr Sb :=
  if ¬ env.manageNSLifecycle then .ok sb
  else
    exceptChain (exceptChain (exceptChain
      (joinIfPinned m.namespaces "network" (netNsJoin env.ns) sb)
      (joinIfPinned m.namespaces "ipc" (ipcNsJoin env.ns)))
      (joinIfPinned m.namespaces "uts" (utsNsJoin env.ns)))
      (joinIfPinned m.namespaces "user" (userNsJoin env.ns))

/-- `sandbox.New` as invoked by `LoadSandbox` (model fields only; the
privileged and host-network flags go through `isTrue`). -/
def sandboxNew (id name : String) (m : SpecCfg) : Sb :=
  { newSb id name with privileged := isTrue m.privilegedAnn,
                       hostNetwork := isTrue m.hostNetworkAnn }

/-- The Go `defer` of `LoadContainer`/`LoadSandbox` that releases a
reserved container name when the remainder of the load failed. -/
def withCtrNameReleased (name : String) :
    ServerState × Option LoadErr → ServerState × Option LoadErr
  | (st, some e) => (ReleaseContainerName st name, some e)
  | (st, none) => (st, none)

/-- The Go `defer` of `LoadSandbox` that releases the reserved pod name
when the remainder of the load failed. -/
def withPodNameReleased (name : String) :
    ServerState × Option LoadErr → ServerState × Option LoadErr
  | (st, some e) => (ReleasePodName st name, some e)
  | (st, none) => (st, none)

/-- The Go `defer` of `LoadSandbox` that removes the already-added sandbox
when the remainder of the load failed; the removal's own error is logged
and ignored. -/
def withSandboxRemoved (platformOk : Bool) (sbId : String) :
    ServerState × Option LoadErr → ServerState × Option LoadErr
  | (st, some e) => ((RemoveSandbox platformOk st sbId).1, some e)
  | (st, none) => (st, none)

/-- Mutation of the sandbox object held in the map (the Go code mutates
through the shared pointer, so the stored object changes in place). -/
def updateSb (st : ServerState) (id : String) (f : Sb → Sb) : ServerState :=
  match mapGet st.sandboxes id with
  | none => st
  | some sb => { st with sandboxes := mapSet st.sandboxes id (f sb) }

/-- The tail of `LoadSandbox` after the infra-container name is reserved
(container_server.go:266-314): parse the created time, build the infra
container, decode volumes, re-read and re-write its state, mark the
sandbox created, reserve the SELinux label, record the infra container
and the restored-stopped state (sandbox.go mutations, spec-modelled),
then add both IDs to the truncated indices. -/
def loadSandboxTail (env : LoadEnv) (st : ServerState) (id : String)
    (m : SpecCfg) (cname : String) : ServerState × Option LoadErr :=
  if ¬ m.createdOk then (st, some .timeParseErr)
  else if ¬ env.newContainerOk then (st, some .newContainerErr)
  else if ¬ m.volumesAnnEmpty ∧ ¬ m.volumesOk then (st, some .volumesErr)
  else if ¬ env.stateFromDiskOk then (st, some .stateFromDiskErr)
  else if ¬ env.stateToDiskOk then (st, some .stateToDiskErr)
  else
    let st1 := updateSb st id (fun sb => { sb with createdSet := true })
    if ¬ env.reserveLabelOk then (st1, some .reserveLabelErr)
    else
      let st2 := updateSb st1 id (fun sb =>
        { sb with infra := some { id := m.containerID, name := cname, sandbox := id },
                  stopped := true })
      match idxAdd st2.ctrIDIndex m.containerID with
      | .error _ => (st2, some .idIndexErr)
      | .ok ci =>
        match idxAdd st2.podIDIndex id with
        | .error _ => ({ st2 with ctrIDIndex := ci }, some .idIndexErr)
        | .ok pi => ({ st2 with ctrIDIndex := ci, podIDIndex := pi }, none)

/-- The middle of `LoadSandbox` after the sandbox is in the store
(container_server.go:246-264): resolve the run and persistent
directories, reserve the infra-container's name, then run the tail under
its release-on-error defer. -/
def loadSandboxStoreDirs (env : LoadEnv) (st : ServerState) (id : String)
    (m : SpecCfg) : ServerState × Option LoadErr :=
  if ¬ env.runDirOk then (st, some .storeDirErr)
  else if ¬ env.ctrDirOk then (st, some .storeDirErr)
  else
    match ReserveContainerName st m.containerID m.containerName with
    | .error e => (st, some e)
    | .ok res => withCtrNameReleased res.2 (loadSandboxTail env res.1 id m res.2)

/-- The body of `LoadSandbox` after the pod name is reserved
(container_server.go:170-245): decode metadata, kube annotation map, port
mappings and namespace options, build the sandbox, re-join its pinned
namespaces, add it to the store (platform step included), and continue
under the remove-on-error defer. -/
def loadSandboxBody (env : LoadEnv) (st : ServerState) (id : String)
    (m : SpecCfg) (name : String) : ServerState × Option LoadErr :=
  if ¬ m.metadataOk then (st, some .annParseErr)
  else if ¬ m.kubeAnnOk then (st, some .annParseErr)
  else if ¬ m.portMappingsOk then (st, some .annParseErr)
  else if ¬ m.nsOptsOk then (st, some .annParseErr)
  else if ¬ env.sandboxNewOk then (st, some .sandboxNewErr)
  else
    match sandboxJoins env m (sandboxNew id name m) with
    | .error e => (st, some e)
    | .ok sb =>
      match AddSandbox env.addSandboxPlatformOk st sb with
      | (st1, some e) => (st1, some e)
      | (st1, none) =>
        withSandboxRemoved env.removeSandboxPlatformOk sb.id
          (loadSandboxStoreDirs env st1 id m)

/-- `LoadSandbox` from container_server.go:147-315.  Note: no
manager-marker check is performed by this function; after reading and
unmarshalling `config.json` and the labels it reserves the pod name and
runs the body under the release-on-error defer. -/
def LoadSandbox (env : LoadEnv) (st : ServerState) (id : String) :
    ServerState × Option LoadErr :=
  if ¬ env.readConfigOk then (st, some .ioErr)
  else
    match env.specParse with
    | none => (st, some .specParseErr)
    | some m =>
      if ¬ m.labelsOk then (st, some .annParseErr)
      else
        match ReservePodName st id m.name with
        | .error e => (st, some e)
        | .ok res => withPodNameReleased res.2 (loadSandboxBody env res.1 id m res.2)

/-- The body of `LoadContainer` after the container name is reserved
(container_server.go:367-437): decode metadata, require the owning
sandbox to be present, resolve directories, decode the kube annotation
map, parse the created time, build the container, re-read and re-write
its state, add it to the store, and add its ID to the truncated index. -/
def loadContainerBody (env : LoadEnv) (st : ServerState) (id : String)
    (m : SpecCfg) (name : String) : ServerState × Option LoadErr :=
  if ¬ m.metadataOk then (st, some .annParseErr)
  else
    match mapGet st.sandboxes m.sandboxID with
    | none => (st, some .missingSandboxErr)
    | some sb =>
      if ¬ env.runDirOk then (st, some .storeDirErr)
      else if ¬ env.ctrDirOk then (st, some .storeDirErr)
      else if ¬ m.kubeAnnOk then (st, some .annParseErr)
      else if ¬ m.createdOk then (st, some .timeParseErr)
      else if ¬ env.newContainerOk then (st, some .newContainerErr)
      else if ¬ env.stateFromDiskOk then (st, some .stateFromDiskErr)
      else if ¬ env.stateToDiskOk then (st, some .stateToDiskErr)
      else
        match idxAdd (AddContainer st { id := id, name := name, sandbox := sb.id }).ctrIDIndex id with
        | .error _ =>
          (AddContainer st { id := id, name := name, sandbox := sb.id }, some .idIndexErr)
        | .ok ci =>
          ({ AddContainer st { id := id, name := name, sandbox := sb.id } with
              ctrIDIndex := ci }, none)

/-- `LoadContainer` from container_server.go:336-438.  The manager check
returns the sentinel only when the marker is PRESENT and differs from
`ContainerManagerCRIO`; an absent marker proceeds as managed. -/
def LoadContainer (env : LoadEnv) (st : ServerState) (id : String) :
    ServerState × Option LoadErr :=
  if ¬ env.readConfigOk then (st, some .ioErr)
  else
    match env.specParse with
    | none => (st, some .specParseErr)
    | some m =>
      if isForeignManager m then (st, some .nonCrioContainer)
      else if ¬ m.labelsOk then (st, some .annParseErr)
      else
        match ReserveContainerName st id m.name with
        | .error e => (st, some e)
        | .ok res => withCtrNameReleased res.2 (loadContainerBody env res.1 id m res.2)

/-- Fully-succeeding parse result with an absent manager marker. -/
def mAbsent : SpecCfg :=
  { manager := none, labelsOk := true, name := "ctr-a",
    metadataOk := true, kubeAnnOk := true, portMappingsOk := true,
    nsOptsOk := true, privilegedAnn := "false", hostNetworkAnn := "false",
    namespaces := [], sandboxID := "sb1", containerID := "infra1",
    containerName := "infra-name", createdOk := true,
    volumesAnnEmpty := true, volumesOk := true,
    ttyAnn := "false", stdinAnn := "false", stdinOnceAnn := "false" }

/-- As `mAbsent` but with a foreign (non-CRI-O) manager marker. -/
def mForeign : SpecCfg := { mAbsent with manager := some "libpod" }

/-- As `mAbsent` but with a metadata decode failure. -/
def mBadMeta : SpecCfg := { mAbsent with metadataOk := false }

/-- Environment where every external step succeeds, parsing `mAbsent`. -/
def envOkAbsent : LoadEnv :=
  { readConfigOk := true, specParse := some mAbsent,
    manageNSLifecycle := false, ns := wUts, sandboxNewOk := true,
    addSandboxPlatformOk := true, removeSandboxPlatformOk := true,
    runDirOk := true, ctrDirOk := true, newContainerOk := true,
    stateFromDiskOk := true, stateToDiskOk := true, reserveLabelOk := true }

/-- As `envOkAbsent` but parsing the foreign-marker spec. -/
def envForeign : LoadEnv := { envOkAbsent with specParse := some mForeign }

/-- As `envOkAbsent` but parsing the failing-metadata spec. -/
def envMeta : LoadEnv := { envOkAbsent with specParse := some mBadMeta }

end Crio

namespace Crio

theorem regLookup_release (l : RegMap) (n nm : String) :
    regLookup (regRelease l n) nm = if nm = n then none else regLookup l nm := by
  induction l with
  | nil => simp [regRelease, regLookup]
  | cons hd tl ih =>
    obtain ⟨k, v⟩ := hd
    by_cases hk : k = n
    · subst hk
      by_cases hnm : nm = k
      · subst hnm
        simp [regRelease, regLookup, ih]
      · simp [regRelease, regLookup, hnm, ih, show ¬ k = nm from fun h => hnm h.symm]
    · by_cases hkm : k = nm
      · subst hkm
        simp [regRelease, regLookup, hk]
      · by_cases hnm : nm = n
        · subst hnm
          simp [regRelease, regLookup, hk, hkm, ih]
        · simp [regRelease, regLookup, hk, hkm, hnm, ih]

theorem regRelease_of_none (l : RegMap) (n : String) (h : regLookup l n = none) :
    regRelease l n = l := by
  induction l with
  | nil => rfl
  | cons hd tl ih =>
    obtain ⟨k, v⟩ := hd
    by_cases hk : k = n
    · simp [regLookup, hk] at h
    · simp [regLookup, hk] at h
      simp [regRelease, hk, ih h]

theorem regReserve_ok_lookup {l l' : RegMap} {n id nm : String}
    (h : regReserve l n id = .ok l') (hne : nm ≠ n) :
    regLookup l' nm = regLookup l nm := by
  unfold regReserve at h
  cases hl : regLookup l n with
  | some id2 =>
    rw [hl] at h
    by_cases hid : id2 = id
    · simp [hid] at h
      rw [← h]
    · simp [hid] at h
  | none =>
    rw [hl] at h
    simp at h
    rw [← h]
    simp [regLookup, Ne.symm hne]

theorem mapGet_set_self {α : Type} (l : List (String × α)) (k : String) (v : α) :
    mapGet (mapSet l k v) k = some v := by
  induction l with
  | nil => simp [mapSet, mapGet]
  | cons hd tl ih =>
    obtain ⟨k2, v2⟩ := hd
    by_cases hk : k2 = k <;> simp [mapSet, mapGet, hk, ih]

theorem mapGet_delete_self {α : Type} (l : List (String × α)) (k : String) :
    mapGet (mapDelete l k) k = none := by
  induction l with
  | nil => rfl
  | cons hd tl ih =>
    obtain ⟨k2, v2⟩ := hd
    by_cases hk : k2 = k <;> simp [mapDelete, mapGet, hk, ih]

theorem ctrCount_append (x : Ctr) (a b : List Ctr) :
    ctrCount x (a ++ b) = ctrCount x a + ctrCount x b := by
  induction a with
  | nil => simp [ctrCount]
  | cons c rest ih => simp [ctrCount, ih]; omega

theorem ctrCount_applyFilters (fs : List (Ctr → Bool)) (c x : Ctr) :
    ctrCount x (applyFilters fs c) = if c = x then matchCount c fs else 0 := by
  induction fs with
  | nil => simp [applyFilters, ctrCount, matchCount]
  | cons f rest ih =>
    by_cases hf : f c
    · simp [applyFilters, hf, ctrCount, matchCount, ih]
      by_cases hcx : c = x <;> simp [hcx]
    · simp [applyFilters, hf, ctrCount, matchCount, ih]

theorem ctrCount_filterLoop (fs : List (Ctr → Bool)) (l : List Ctr) (x : Ctr) :
    ctrCount x (filterLoop fs l) = matchCount x fs * ctrCount x l := by
  induction l with
  | nil => simp [filterLoop, ctrCount]
  | cons c rest ih =>
    rw [filterLoop, ctrCount_append, ctrCount_applyFilters, ih]
    by_cases hcx : c = x
    · subst hcx
      simp [ctrCount]
      ring
    · simp [ctrCount, hcx]

/-- C3: for both the container-name and pod-name registrar wrappers of
`container_server.go`: reserving a free name succeeds and records the pair;
re-reserving the identical (name, id) pair succeeds and is a no-op;
reserving the held name under a different id fails with the
already-reserved error; after a release the name is reservable again; and
releasing a name that is not reserved leaves the state untouched. -/
theorem reserve_release_semantics (st : ServerState) (n id id2 : String)
    (hc : regLookup st.ctrNameIndex n = none)
    (hp : regLookup st.podNameIndex n = none)
    (hne : id2 ≠ id) :
    (ReserveContainerName st id n =
      .ok ({ st with ctrNameIndex := (n, id) :: st.ctrNameIndex }, n))
    ∧ (∀ st2 : ServerState, regLookup st2.ctrNameIndex n = some id →
        ReserveContainerName st2 id n = .ok (st2, n))
    ∧ (∀ st2 : ServerState, regLookup st2.ctrNameIndex n = some id →
        ReserveContainerName st2 id2 n = .error .reserveNameErr)
    ∧ (∀ st2 : ServerState,
        ReserveContainerName (ReleaseContainerName st2 n) id2 n =
          .ok ({ st2 with
                  ctrNameIndex := (n, id2) :: regRelease st2.ctrNameIndex n }, n))
    ∧ (∀ st2 : ServerState, regLookup st2.ctrNameIndex n = none →
        ReleaseContainerName st2 n = st2)
    ∧ (ReservePodName st id n =
        .ok ({ st with podNameIndex := (n, id) :: st.podNameIndex }, n))
    ∧ (∀ st2 : ServerState, regLookup st2.podNameIndex n = some id →
        ReservePodName st2 id n = .ok (st2, n))
    ∧ (∀ st2 : ServerState, regLookup st2.podNameIndex n = some id →
        ReservePodName st2 id2 n = .error .reserveNameErr)
    ∧ (∀ st2 : ServerState,
        ReservePodName (ReleasePodName st2 n) id2 n =
          .ok ({ st2 with
                  podNameIndex := (n, id2) :: regRelease st2.podNameIndex n }, n))
    ∧ (∀ st2 : ServerState, regLookup st2.podNameIndex n = none →
        ReleasePodName st2 n = st2) := by
  refine ⟨?_, ?_, ?_, ?_, ?_, ?_, ?_, ?_, ?_, ?_⟩
  · simp [ReserveContainerName, regReserve, hc]
  · intro st2 h2
    simp [ReserveContainerName, regReserve, h2]
  · intro st2 h2
    simp [ReserveContainerName, regReserve, h2, hne.symm]
  · intro st2
    have hrel : regLookup (regRelease st2.ctrNameIndex n) n = none := by
      simp [regLookup_release]
    simp [ReserveContainerName, ReleaseContainerName, regReserve, hrel]
  · intro st2 h2
    simp [ReleaseContainerName, regRelease_of_none _ _ h2]
  · simp [ReservePodName, regReserve, hp]
  · intro st2 h2
    simp [ReservePodName, regReserve, h2]
  · intro st2 h2
    simp [ReservePodName, regReserve, h2, hne.symm]
  · intro st2
    have hrel : regLookup (regRelease st2.podNameIndex n) n = none := by
      simp [regLookup_release]
    simp [ReservePodName, ReleasePodName, regReserve, hrel]
  · intro st2 h2
    simp [ReleasePodName, regRelease_of_none _ _ h2]

theorem reserve_release_semantics_witness :
    (regLookup emptyState.ctrNameIndex "name-a" = none
      ∧ ("id-2" : String) ≠ "id-1")
    ∧ ReserveContainerName emptyState "id-1" "name-a" =
        .ok ({ emptyState with ctrNameIndex := [("name-a", "id-1")] }, "name-a") :=
  ⟨⟨rfl, by decide⟩,
    (reserve_release_semantics emptyState "name-a" "id-1" "id-2" rfl rfl (by decide)).1⟩

/-- C4: `RemoveSandbox` runs the platform cleanup step first; when the
cleanup fails the error is returned and the whole state — in particular
the sandboxes map — is unchanged; only when cleanup succeeds is the
sandbox deleted from the map. -/
theorem removeSandbox_cleanup_before_delete (st : ServerState) (id : String) (sb : Sb)
    (h : mapGet st.sandboxes id = some sb) :
    RemoveSandbox false st id = (st, some .removePlatformErr)
    ∧ mapGet (RemoveSandbox false st id).1.sandboxes id = some sb
    ∧ RemoveSandbox true st id = ({ st with sandboxes := mapDelete st.sandboxes id }, none)
    ∧ mapGet (RemoveSandbox true st id).1.sandboxes id = none := by
  refine ⟨?_, ?_, ?_, ?_⟩ <;> simp [RemoveSandbox, h, mapGet_delete_self]

theorem removeSandbox_cleanup_before_delete_witness :
    mapGet stSb.sandboxes "sb1" = some sbW
    ∧ RemoveSandbox false stSb "sb1" = (stSb, some .removePlatformErr) :=
  ⟨rfl, (removeSandbox_cleanup_before_delete stSb "sb1" sbW rfl).1⟩

/-- C9: `AddContainer` with an unknown sandbox id leaves the whole state
unchanged (no containers-map entry, no sandbox container-list change) and,
the function having no error return, reports nothing; `RemoveContainer`
with an unknown sandbox id likewise leaves the state unchanged; and at the
moment of insertion every container entering the containers map has its
sandbox present in the sandboxes map. -/
theorem addContainer_requires_sandbox (st : ServerState) (ctr : Ctr)
    (h : mapGet st.sandboxes ctr.sandbox = none) :
    AddContainer st ctr = st
    ∧ RemoveContainer st ctr = st
    ∧ (∀ (st2 : ServerState) (c2 : Ctr),
        mapGet st2.containers c2.id = none →
        (mapGet (AddContainer st2 c2).containers c2.id).isSome = true →
        (mapGet (AddContainer st2 c2).sandboxes c2.sandbox).isSome = true) := by
  refine ⟨by simp [AddContainer, h], by simp [RemoveContainer, h], ?_⟩
  intro st2 c2 hnone hsome
  cases hs : mapGet st2.sandboxes c2.sandbox with
  | none =>
    rw [AddContainer, hs] at hsome
    rw [hnone] at hsome
    simp at hsome
  | some sb =>
    rw [AddContainer, hs]
    simp [mapGet_set_self]

theorem addContainer_requires_sandbox_witness :
    mapGet emptyState.sandboxes cW.sandbox = none
    ∧ AddContainer emptyState cW = emptyState :=
  ⟨rfl, (addContainer_requires_sandbox emptyState cW rfl).1⟩

/-- C10: `ListContainers` with zero filters returns the stored snapshot
unchanged (each stored container once); with at least one filter, a
container stored exactly once appears in the result exactly as many times
as the number of filters it satisfies — in particular more than once when
it matches several filters. -/
theorem listContainers_filter_multiplicity (st : ServerState)
    (filters : List (Ctr → Bool)) (c : Ctr)
    (hone : ctrCount c (listContainers st) = 1) :
    (filters = [] → ListContainers st filters = listContainers st)
    ∧ (filters ≠ [] → ctrCount c (ListContainers st filters) = matchCount c filters) := by
  constructor
  · intro hnil
    simp [ListContainers, hnil]
  · intro hne
    have hempty : filters.isEmpty = false := by
      cases filters with
      | nil => exact absurd rfl hne
      | cons f rest => rfl
    rw [ListContainers, hempty]
    simp only [Bool.false_eq_true, if_false]
    rw [ctrCount_filterLoop, hone, Nat.mul_one]

theorem listContainers_filter_multiplicity_witness :
    ctrCount cW (listContainers stC) = 1
    ∧ ctrCount cW (ListContainers stC fsW) = matchCount cW fsW
    ∧ matchCount cW fsW = 2 :=
  ⟨by decide,
    (listContainers_filter_multiplicity stC fsW cW (by decide)).2 (by simp [fsW]),
    by decide⟩

/-- C5: `Namespace.Remove` is idempotent: a successful remove of a
not-yet-closed managed handle performs close, lazy unmount and path
deletion and records the handle as closed; a remove of a closed handle
returns nil at once with no effects, so every subsequent remove on the
resulting handle is a no-op. -/
theorem namespace_remove_idempotent (w : RmWorld) (n : Namespace)
    (hset : n.nsSet = true) (hpath : n.nsPath ≠ "") (hnc : n.closed = false) :
    ((nsRemove w n).2.1 = none →
      ((nsRemove w n).1.closed = true
        ∧ (nsRemove w n).2.2 =
            [.closeFd, .unmountPath n.nsPath, .removePath n.nsPath]))
    ∧ (∀ w2 n2, n2.closed = true → nsRemove w2 n2 = (n2, none, []))
    ∧ ((nsRemove w n).2.1 = none →
        ∀ w2, nsRemove w2 (nsRemove w n).1 = ((nsRemove w n).1, none, [])) := by
  have hsecond : ∀ w2 n2, n2.closed = true → nsRemove w2 n2 = (n2, none, []) := by
    intro w2 n2 h2
    simp [nsRemove, h2]
  have hfirst : (nsRemove w n).2.1 = none →
      ((nsRemove w n).1.closed = true
        ∧ (nsRemove w n).2.2 =
            [.closeFd, .unmountPath n.nsPath, .removePath n.nsPath]) := by
    intro hok
    by_cases hc : w.closeOk
    · by_cases hu : w.unmountOk n.nsPath
      · by_cases hr : w.removeAllOk n.nsPath
        · constructor <;>
            simp [nsRemove, nsRemoveAfterClose, hnc, hset, nsClose, pathOf,
              hc, hu, hr, hpath]
        · exfalso
          simp [nsRemove, nsRemoveAfterClose, hnc, hset, nsClose, pathOf,
            hc, hu, hr, hpath] at hok
      · exfalso
        simp [nsRemove, nsRemoveAfterClose, hnc, hset, nsClose, pathOf,
          hc, hu] at hok
    · exfalso
      simp [nsRemove, hnc, nsClose, hset, hc] at hok
  exact ⟨hfirst, hsecond, fun hok w2 => hsecond w2 _ (hfirst hok).1⟩

theorem namespace_remove_idempotent_witness :
    (nsRemove rmAllOk nsManaged).2.1 = none
    ∧ (nsRemove rmAllOk nsManaged).1.closed = true
    ∧ nsRemove rmAllOk (nsRemove rmAllOk nsManaged).1 =
        ((nsRemove rmAllOk nsManaged).1, none, []) :=
  ⟨by decide,
    ((namespace_remove_idempotent rmAllOk nsManaged rfl (by decide) rfl).1
      (by decide)).1,
    (namespace_remove_idempotent rmAllOk nsManaged rfl (by decide) rfl).2.2
      (by decide) rmAllOk⟩

theorem buildMounted_ok (dir fname : String) (ts : List String)
    (hvalid : ∀ t ∈ ts, (typeToArg t).isSome = true) :
    buildMounted dir fname ts = .ok (ts.map (fun t => (pinPath dir fname t, t))) := by
  induction ts with
  | nil => rfl
  | cons t rest ih =>
    have ht := hvalid t (by simp)
    have hrest : ∀ x ∈ rest, (typeToArg x).isSome = true := fun x hx =>
      hvalid x (by simp [hx])
    cases harg : typeToArg t with
    | none => rw [harg] at ht; simp at ht
    | some a => simp [buildMounted, harg, ih hrest]

/-- C6: when the helper binary fails, `pinNamespaces` attempts a lazy
unmount of every would-be pinned path for the requested kinds, never
returns a namespace list, and the returned error is the helper-failure
error unless some unmount of the cleanup failed, in which case it is the
cleanup error. -/
theorem pin_failure_cleanup (w : PinWorld) (dir fname : String) (ts : List String)
    (hvalid : ∀ t ∈ ts, (typeToArg t).isSome = true)
    (hfail : w.helperOk = false) :
    (pinNamespaces w dir fname ts).2 = ts.map (pinPath dir fname)
    ∧ (∀ l, (pinNamespaces w dir fname ts).1 ≠ .ok l)
    ∧ ((pinNamespaces w dir fname ts).1 = .error .pinFailed
        ∨ (pinNamespaces w dir fname ts).1 = .error .cleanupFailed)
    ∧ ((pinNamespaces w dir fname ts).1 = .error .pinFailed ↔
        ∀ t ∈ ts, w.unmountOk (pinPath dir fname t) = true) := by
  have hb := buildMounted_ok dir fname ts hvalid
  by_cases hex : ∃ x ∈ ts, w.unmountOk (pinPath dir fname x) = false
  · have hnall : ¬ ∀ t ∈ ts, w.unmountOk (pinPath dir fname t) = true := by
      obtain ⟨x, hx, hfalse⟩ := hex
      intro hall
      rw [hall x hx] at hfalse
      simp at hfalse
    refine ⟨?_, ?_, ?_, ?_⟩ <;> simp [pinNamespaces, hb, hfail, hex, hnall]
  · have hall : ∀ t ∈ ts, w.unmountOk (pinPath dir fname t) = true := by
      intro t ht
      by_cases hu : w.unmountOk (pinPath dir fname t) = true
      · exact hu
      · exact absurd ⟨t, ht, by simpa using hu⟩ hex
    refine ⟨?_, ?_, ?_, ?_⟩ <;> simp [pinNamespaces, hb, hfail, hex]
    exact hall

theorem pin_failure_cleanup_witness :
    (pinNamespaces pinHelperFails "/ns" "f" ["net", "ipc"]).2 =
      ["net", "ipc"].map (pinPath "/ns" "f")
    ∧ (pinNamespaces pinHelperFails "/ns" "f" ["net", "ipc"]).1 =
        .error .pinFailed :=
  ⟨(pin_failure_cleanup pinHelperFails "/ns" "f" ["net", "ipc"]
      (by decide) rfl).1,
    (pin_failure_cleanup pinHelperFails "/ns" "f" ["net", "ipc"]
      (by decide) rfl).2.2.2.mpr (by decide)⟩

theorem nsJoin_ok_isNS {w : NsWorld} {cur : Option Namespace} {p : String}
    {ns : Namespace} (h : nsJoin w cur p = .ok ns) : w.isNSorErr p = true := by
  unfold nsJoin at h
  cases cur with
  | some _ => simp at h
  | none =>
    unfold getNamespace at h
    by_cases hi : w.isNSorErr p = true
    · exact hi
    · rw [Bool.not_eq_true] at hi
      simp [hi] at h

/-- C7 counterexample: in a world where the file at "/p" is a uts
namespace, `NetNsJoin` on a fresh sandbox succeeds even though the path
is not a namespace of the expected (network) kind — the join does not
verify the kind. -/
theorem nsJoin_kind_counterexample :
    wUts.kindOf "/p" ≠ "net"
    ∧ netNsJoin wUts sbFresh "/p" =
        .ok { sbFresh with
                netns := some { nsSet := true, closed := false, inited := false,
                                nsType := "", nsPath := "/p" } } :=
  ⟨by decide, rfl⟩

/-- C7 amended: for each of the four kinds, a join succeeds only if the
path passes the namespace check (`IsNSorErr`; the specific kind is not
verified), and a sandbox that already holds a managed handle of that kind
fails the join, the recorded handle being left in place. -/
theorem nsJoin_verifies_namespace (w : NsWorld) (sb : Sb) (p : String) :
    (∀ sb2, netNsJoin w sb p = .ok sb2 → w.isNSorErr p = true)
    ∧ (sb.netns.isSome = true → netNsJoin w sb p = .error .nsJoinErr)
    ∧ (∀ sb2, ipcNsJoin w sb p = .ok sb2 → w.isNSorErr p = true)
    ∧ (sb.ipcns.isSome = true → ipcNsJoin w sb p = .error .nsJoinErr)
    ∧ (∀ sb2, utsNsJoin w sb p = .ok sb2 → w.isNSorErr p = true)
    ∧ (sb.utsns.isSome = true → utsNsJoin w sb p = .error .nsJoinErr)
    ∧ (∀ sb2, userNsJoin w sb p = .ok sb2 → w.isNSorErr p = true)
    ∧ (sb.userns.isSome = true → userNsJoin w sb p = .error .nsJoinErr) := by
  refine ⟨?_, ?_, ?_, ?_, ?_, ?_, ?_, ?_⟩
  · intro sb2 h
    unfold netNsJoin at h
    cases hj : nsJoin w sb.netns p with
    | error e => rw [hj] at h; simp at h
    | ok ns => exact nsJoin_ok_isNS hj
  · intro h
    obtain ⟨x, hx⟩ := Option.isSome_iff_exists.mp h
    simp [netNsJoin, nsJoin, hx]
  · intro sb2 h
    unfold ipcNsJoin at h
    cases hj : nsJoin w sb.ipcns p with
    | error e => rw [hj] at h; simp at h
    | ok ns => exact nsJoin_ok_isNS hj
  · intro h
    obtain ⟨x, hx⟩ := Option.isSome_iff_exists.mp h
    simp [ipcNsJoin, nsJoin, hx]
  · intro sb2 h
    unfold utsNsJoin at h
    cases hj : nsJoin w sb.utsns p with
    | error e => rw [hj] at h; simp at h
    | ok ns => exact nsJoin_ok_isNS hj
  · intro h
    obtain ⟨x, hx⟩ := Option.isSome_iff_exists.mp h
    simp [utsNsJoin, nsJoin, hx]
  · intro sb2 h
    unfold userNsJoin at h
    cases hj : nsJoin w sb.userns p with
    | error e => rw [hj] at h; simp at h
    | ok ns => exact nsJoin_ok_isNS hj
  · intro h
    obtain ⟨x, hx⟩ := Option.isSome_iff_exists.mp h
    simp [userNsJoin, nsJoin, hx]

theorem nsJoin_verifies_namespace_witness :
    sbWithNet.netns.isSome = true
    ∧ netNsJoin wUts sbWithNet "/p" = .error .nsJoinErr :=
  ⟨rfl, (nsJoin_verifies_namespace wUts sbWithNet "/p").2.1 rfl⟩

/-- C8 counterexample: restoring the IDs ["a", "b"] where "a" succeeds and
"b" fails exits non-zero with an empty output stream — the ID "a" that
succeeded before the failure was never written. -/
theorem restore_output_counterexample :
    okA "a" = true
    ∧ restoreRun okA ["a", "b"] = ([], false)
    ∧ ¬ ("a" ∈ (restoreRun okA ["a", "b"]).1) := by
  decide

theorem restoreCollect_eq (ok : String → Bool) (ids : List String) :
    restoreCollect ok ids = if ids.all ok then .ok ids else .error () := by
  induction ids with
  | nil => rfl
  | cons i rest ih =>
    by_cases h : ok i
    · simp only [restoreCollect, h, if_true, ih, List.all_cons]
      by_cases hr : rest.all ok <;> simp [h, hr]
    · simp [restoreCollect, h]

/-- C8 amended: both client commands exit 0 exactly when every ID
succeeds and stop at the first failing ID; the checkpoint command has
written every ID that succeeded before the failure (the longest
successful head of the list), while the restore command buffers its
responses and writes them only when every ID succeeded — on failure
nothing has been written. -/
theorem cr_exit_and_output (ok : String → Bool) (ids : List String) :
    checkpointRun ok ids = (ids.takeWhile ok, ids.all ok)
    ∧ restoreRun ok ids = (if ids.all ok then ids else [], ids.all ok) := by
  constructor
  · induction ids with
    | nil => rfl
    | cons i rest ih =>
      by_cases h : ok i
      · simp [checkpointRun, h, List.takeWhile_cons, List.all_cons, ih]
      · simp [checkpointRun, h, List.takeWhile_cons, List.all_cons]
  · rw [restoreRun, restoreCollect_eq]
    by_cases h : ids.all ok <;> simp [h]

theorem withCtrNameReleased_snd (n : String) (r : ServerState × Option LoadErr) :
    (withCtrNameReleased n r).2 = r.2 := by
  obtain ⟨st, e⟩ := r
  cases e <;> rfl

theorem withPodNameReleased_snd (n : String) (r : ServerState × Option LoadErr) :
    (withPodNameReleased n r).2 = r.2 := by
  obtain ⟨st, e⟩ := r
  cases e <;> rfl

theorem withSandboxRemoved_snd (ok : Bool) (sbId : String)
    (r : ServerState × Option LoadErr) :
    (withSandboxRemoved ok sbId r).2 = r.2 := by
  obtain ⟨st, e⟩ := r
  cases e <;> rfl

theorem withCtrNameReleased_pod (n : String) (r : ServerState × Option LoadErr) :
    (withCtrNameReleased n r).1.podNameIndex = r.1.podNameIndex := by
  obtain ⟨st, e⟩ := r
  cases e <;> rfl

theorem RemoveSandbox_pod (ok : Bool) (st : ServerState) (id : String) :
    (RemoveSandbox ok st id).1.podNameIndex = st.podNameIndex := by
  simp only [RemoveSandbox]
  repeat' split
  all_goals rfl

theorem RemoveSandbox_ctrName (ok : Bool) (st : ServerState) (id : String) :
    (RemoveSandbox ok st id).1.ctrNameIndex = st.ctrNameIndex := by
  simp only [RemoveSandbox]
  repeat' split
  all_goals rfl

theorem withSandboxRemoved_pod (ok : Bool) (sbId : String)
    (r : ServerState × Option LoadErr) :
    (withSandboxRemoved ok sbId r).1.podNameIndex = r.1.podNameIndex := by
  obtain ⟨st, e⟩ := r
  cases e with
  | none => rfl
  | some e2 => simp [withSandboxRemoved, RemoveSandbox_pod]

theorem withSandboxRemoved_ctrName (ok : Bool) (sbId : String)
    (r : ServerState × Option LoadErr) :
    (withSandboxRemoved ok sbId r).1.ctrNameIndex = r.1.ctrNameIndex := by
  obtain ⟨st, e⟩ := r
  cases e with
  | none => rfl
  | some e2 => simp [withSandboxRemoved, RemoveSandbox_ctrName]

theorem updateSb_pod (st : ServerState) (id : String) (f : Sb → Sb) :
    (updateSb st id f).podNameIndex = st.podNameIndex := by
  simp only [updateSb]
  split <;> rfl

theorem updateSb_ctrName (st : ServerState) (id : String) (f : Sb → Sb) :
    (updateSb st id f).ctrNameIndex = st.ctrNameIndex := by
  simp only [updateSb]
  split <;> rfl

theorem AddSandbox_pod (ok : Bool) (st : ServerState) (sb : Sb) :
    (AddSandbox ok st sb).1.podNameIndex = st.podNameIndex := by
  simp only [AddSandbox]
  split <;> rfl

theorem AddSandbox_ctrName (ok : Bool) (st : ServerState) (sb : Sb) :
    (AddSandbox ok st sb).1.ctrNameIndex = st.ctrNameIndex := by
  simp only [AddSandbox]
  split <;> rfl

theorem AddSandbox_err {ok : Bool} {st st1 : ServerState} {sb : Sb} {e : LoadErr}
    (h : AddSandbox ok st sb = (st1, some e)) : e = .addSandboxErr := by
  simp only [AddSandbox] at h
  split at h
  · simp at h
  · simp at h
    exact h.2.symm

theorem AddContainer_pod (st : ServerState) (c : Ctr) :
    (AddContainer st c).podNameIndex = st.podNameIndex := by
  simp only [AddContainer]
  split <;> rfl

theorem AddContainer_ctrName (st : ServerState) (c : Ctr) :
    (AddContainer st c).ctrNameIndex = st.ctrNameIndex := by
  simp only [AddContainer]
  split <;> rfl

theorem ReserveContainerName_err {st : ServerState} {id n : String} {e : LoadErr}
    (h : ReserveContainerName st id n = .error e) : e = .reserveNameErr := by
  unfold ReserveContainerName at h
  cases hr : regReserve st.ctrNameIndex n id with
  | error u => rw [hr] at h; injection h with h2; exact h2.symm
  | ok l => rw [hr] at h; simp at h

theorem ReservePodName_err {st : ServerState} {id n : String} {e : LoadErr}
    (h : ReservePodName st id n = .error e) : e = .reserveNameErr := by
  unfold ReservePodName at h
  cases hr : regReserve st.podNameIndex n id with
  | error u => rw [hr] at h; injection h with h2; exact h2.symm
  | ok l => rw [hr] at h; simp at h

theorem ReserveContainerName_ok {st : ServerState} {id n : String}
    {res : ServerState × String} (h : ReserveContainerName st id n = .ok res) :
    res.2 = n
    ∧ regReserve st.ctrNameIndex n id = .ok res.1.ctrNameIndex
    ∧ res.1.podNameIndex = st.podNameIndex := by
  unfold ReserveContainerName at h
  cases hr : regReserve st.ctrNameIndex n id with
  | error u => rw [hr] at h; simp at h
  | ok l =>
    rw [hr] at h
    injection h with h2
    subst h2
    exact ⟨rfl, rfl, rfl⟩

theorem ReservePodName_ok {st : ServerState} {id n : String}
    {res : ServerState × String} (h : ReservePodName st id n = .ok res) :
    res.2 = n
    ∧ regReserve st.podNameIndex n id = .ok res.1.podNameIndex
    ∧ res.1.ctrNameIndex = st.ctrNameIndex := by
  unfold ReservePodName at h
  cases hr : regReserve st.podNameIndex n id with
  | error u => rw [hr] at h; simp at h
  | ok l =>
    rw [hr] at h
    injection h with h2
    subst h2
    exact ⟨rfl, rfl, rfl⟩

theorem nsJoin_err {w : NsWorld} {cur : Option Namespace} {p : String} {e : LoadErr}
    (h : nsJoin w cur p = .error e) : e = .nsJoinErr := by
  unfold nsJoin at h
  cases cur with
  | some x => injection h with h2; exact h2.symm
  | none =>
    cases hg : getNamespace w p with
    | none => rw [hg] at h; injection h with h2; exact h2.symm
    | some ns => rw [hg] at h; simp at h

theorem netNsJoin_err {w : NsWorld} {sb : Sb} {p : String} {e : LoadErr}
    (h : netNsJoin w sb p = .error e) : e = .nsJoinErr := by
  unfold netNsJoin at h
  cases hj : nsJoin w sb.netns p with
  | error e2 => rw [hj] at h; injection h with h2; exact h2 ▸ nsJoin_err hj
  | ok ns => rw [hj] at h; simp at h

theorem ipcNsJoin_err {w : NsWorld} {sb : Sb} {p : String} {e : LoadErr}
    (h : ipcNsJoin w sb p = .error e) : e = .nsJoinErr := by
  unfold ipcNsJoin at h
  cases hj : nsJoin w sb.ipcns p with
  | error e2 => rw [hj] at h; injection h with h2; exact h2 ▸ nsJoin_err hj
  | ok ns => rw [hj] at h; simp at h

theorem utsNsJoin_err {w : NsWorld} {sb : Sb} {p : String} {e : LoadErr}
    (h : utsNsJoin w sb p = .error e) : e = .nsJoinErr := by
  unfold utsNsJoin at h
  cases hj : nsJoin w sb.utsns p with
  | error e2 => rw [hj] at h; injection h with h2; exact h2 ▸ nsJoin_err hj
  | ok ns => rw [hj] at h; simp at h

theorem userNsJoin_err {w : NsWorld} {sb : Sb} {p : String} {e : LoadErr}
    (h : userNsJoin w sb p = .error e) : e = .nsJoinErr := by
  unfold userNsJoin at h
  cases hj : nsJoin w sb.userns p with
  | error e2 => rw [hj] at h; injection h with h2; exact h2 ▸ nsJoin_err hj
  | ok ns => rw [hj] at h; simp at h

theorem joinIfPinned_err {nss : List (String × String)} {nsType : String}
    {join : Sb → String → Except LoadErr Sb} {sb : Sb} {e : LoadErr}
    (hjoin : ∀ sb2 p e2, join sb2 p = .error e2 → e2 = .nsJoinErr)
    (h : joinIfPinned nss nsType join sb = .error e) : e = .nsJoinErr := by
  unfold joinIfPinned at h
  cases hc : configNsPath nss nsType with
  | error u => rw [hc] at h; simp at h
  | ok p => rw [hc] at h; exact hjoin sb p e h

theorem exceptChain_err {r : Except LoadErr Sb} {f : Sb → Except LoadErr Sb}
    {e : LoadErr}
    (hr : ∀ e2, r = .error e2 → e2 = .nsJoinErr)
    (hf : ∀ sb2 e2, f sb2 = .error e2 → e2 = .nsJoinErr)
    (h : exceptChain r f = .error e) : e = .nsJoinErr := by
  unfold exceptChain at h
  cases hr2 : r with
  | error e2 => rw [hr2] at h; injection h with h3; exact h3 ▸ hr e2 hr2
  | ok sb => rw [hr2] at h; exact hf sb e h

theorem sandboxJoins_err {env : LoadEnv} {m : SpecCfg} {sb : Sb} {e : LoadErr}
    (h : sandboxJoins env m sb = .error e) : e = .nsJoinErr := by
  unfold sandboxJoins at h
  split at h
  · simp at h
  · refine exceptChain_err ?_
      (fun sb2 e2 hh => joinIfPinned_err (fun _ _ _ hx => userNsJoin_err hx) hh) h
    intro e2 h2
    refine exceptChain_err ?_
      (fun sb2 e3 hh => joinIfPinned_err (fun _ _ _ hx => utsNsJoin_err hx) hh) h2
    intro e3 h3
    refine exceptChain_err ?_
      (fun sb2 e4 hh => joinIfPinned_err (fun _ _ _ hx => ipcNsJoin_err hx) hh) h3
    intro e4 h4
    exact joinIfPinned_err (fun _ _ _ hx => netNsJoin_err hx) h4

theorem loadSandboxTail_ns (env : LoadEnv) (st : ServerState) (id : String)
    (m : SpecCfg) (cname : String) :
    (loadSandboxTail env st id m cname).2 ≠ some .nonCrioContainer := by
  simp only [loadSandboxTail]
  repeat' split
  all_goals simp

theorem loadSandboxTail_pod (env : LoadEnv) (st : ServerState) (id : String)
    (m : SpecCfg) (cname : String) :
    (loadSandboxTail env st id m cname).1.podNameIndex = st.podNameIndex := by
  simp only [loadSandboxTail]
  repeat' split
  all_goals simp [updateSb_pod]

theorem loadSandboxTail_ctrName (env : LoadEnv) (st : ServerState) (id : String)
    (m : SpecCfg) (cname : String) :
    (loadSandboxTail env st id m cname).1.ctrNameIndex = st.ctrNameIndex := by
  simp only [loadSandboxTail]
  repeat' split
  all_goals simp [updateSb_ctrName]

theorem loadSandboxStoreDirs_ns (env : LoadEnv) (st : ServerState) (id : String)
    (m : SpecCfg) :
    (loadSandboxStoreDirs env st id m).2 ≠ some .nonCrioContainer := by
  by_cases h1 : env.runDirOk
  case neg => simp [loadSandboxStoreDirs, h1]
  case pos =>
  by_cases h2 : env.ctrDirOk
  case neg => simp [loadSandboxStoreDirs, h1, h2]
  case pos =>
  cases hres : ReserveContainerName st m.containerID m.containerName with
  | error e =>
    have he := ReserveContainerName_err hres
    subst he
    simp [loadSandboxStoreDirs, h1, h2, hres]
  | ok res =>
    have hSD : loadSandboxStoreDirs env st id m =
        withCtrNameReleased res.2 (loadSandboxTail env res.1 id m res.2) := by
      simp [loadSandboxStoreDirs, h1, h2, hres]
    rw [hSD, withCtrNameReleased_snd]
    exact loadSandboxTail_ns env res.1 id m res.2

theorem loadSandboxStoreDirs_pod (env : LoadEnv) (st : ServerState) (id : String)
    (m : SpecCfg) :
    (loadSandboxStoreDirs env st id m).1.podNameIndex = st.podNameIndex := by
  by_cases h1 : env.runDirOk
  case neg => simp [loadSandboxStoreDirs, h1]
  case pos =>
  by_cases h2 : env.ctrDirOk
  case neg => simp [loadSandboxStoreDirs, h1, h2]
  case pos =>
  cases hres : ReserveContainerName st m.containerID m.containerName with
  | error e => simp [loadSandboxStoreDirs, h1, h2, hres]
  | ok res =>
    have hok := ReserveContainerName_ok hres
    have hSD : loadSandboxStoreDirs env st id m =
        withCtrNameReleased res.2 (loadSandboxTail env res.1 id m res.2) := by
      simp [loadSandboxStoreDirs, h1, h2, hres]
    rw [hSD, withCtrNameReleased_pod, loadSandboxTail_pod]
    exact hok.2.2

theorem loadSandboxStoreDirs_ctrName (env : LoadEnv) (st : ServerState)
    (id : String) (m : SpecCfg) (nm : String)
    (hctr : regLookup st.ctrNameIndex nm = none)
    (herr : (loadSandboxStoreDirs env st id m).2.isSome = true) :
    regLookup (loadSandboxStoreDirs env st id m).1.ctrNameIndex nm = none := by
  by_cases h1 : env.runDirOk
  case neg => simp [loadSandboxStoreDirs, h1, hctr]
  case pos =>
  by_cases h2 : env.ctrDirOk
  case neg => simp [loadSandboxStoreDirs, h1, h2, hctr]
  case pos =>
  cases hres : ReserveContainerName st m.containerID m.containerName with
  | error e => simp [loadSandboxStoreDirs, h1, h2, hres, hctr]
  | ok res =>
    have hok := ReserveContainerName_ok hres
    have hSD : loadSandboxStoreDirs env st id m =
        withCtrNameReleased res.2 (loadSandboxTail env res.1 id m res.2) := by
      simp [loadSandboxStoreDirs, h1, h2, hres]
    rw [hSD] at herr ⊢
    cases htail : loadSandboxTail env res.1 id m res.2 with
    | mk st2 e2 =>
      have hteq : st2.ctrNameIndex = res.1.ctrNameIndex := by
        have := loadSandboxTail_ctrName env res.1 id m res.2
        rw [htail] at this
        exact this
      cases e2 with
      | none =>
        rw [htail] at herr
        simp [withCtrNameReleased] at herr
      | some e =>
        show regLookup (regRelease st2.ctrNameIndex res.2) nm = none
        rw [hteq, regLookup_release]
        by_cases hnm : nm = res.2
        · simp [hnm]
        · rw [if_neg hnm]
          have hnm2 : nm ≠ m.containerName := by rw [← hok.1]; exact hnm
          rw [regReserve_ok_lookup hok.2.1 hnm2]
          exact hctr

theorem loadSandboxBody_ns (env : LoadEnv) (st : ServerState) (id : String)
    (m : SpecCfg) (name : String) :
    (loadSandboxBody env st id m name).2 ≠ some .nonCrioContainer := by
  by_cases h1 : m.metadataOk
  case neg => simp [loadSandboxBody, h1]
  case pos =>
  by_cases h2 : m.kubeAnnOk
  case neg => simp [loadSandboxBody, h1, h2]
  case pos =>
  by_cases h3 : m.portMappingsOk
  case neg => simp [loadSandboxBody, h1, h2, h3]
  case pos =>
  by_cases h4 : m.nsOptsOk
  case neg => simp [loadSandboxBody, h1, h2, h3, h4]
  case pos =>
  by_cases h5 : env.sandboxNewOk
  case neg => simp [loadSandboxBody, h1, h2, h3, h4, h5]
  case pos =>
  cases hj : sandboxJoins env m (sandboxNew id name m) with
  | error e =>
    have he := sandboxJoins_err hj
    subst he
    simp [loadSandboxBody, h1, h2, h3, h4, h5, hj]
  | ok sb =>
    cases hadd : AddSandbox env.addSandboxPlatformOk st sb with
    | mk st1 e1 =>
      cases e1 with
      | some e =>
        have he := AddSandbox_err hadd
        subst he
        simp [loadSandboxBody, h1, h2, h3, h4, h5, hj, hadd]
      | none =>
        have hBody : loadSandboxBody env st id m name =
            withSandboxRemoved env.removeSandboxPlatformOk sb.id
              (loadSandboxStoreDirs env st1 id m) := by
          simp [loadSandboxBody, h1, h2, h3, h4, h5, hj, hadd]
        rw [hBody, withSandboxRemoved_snd]
        exact loadSandboxStoreDirs_ns env st1 id m

theorem loadSandboxBody_pod (env : LoadEnv) (st : ServerState) (id : String)
    (m : SpecCfg) (name : String) :
    (loadSandboxBody env st id m name).1.podNameIndex = st.podNameIndex := by
  by_cases h1 : m.metadataOk
  case neg => simp [loadSandboxBody, h1]
  case pos =>
  by_cases h2 : m.kubeAnnOk
  case neg => simp [loadSandboxBody, h1, h2]
  case pos =>
  by_cases h3 : m.portMappingsOk
  case neg => simp [loadSandboxBody, h1, h2, h3]
  case pos =>
  by_cases h4 : m.nsOptsOk
  case neg => simp [loadSandboxBody, h1, h2, h3, h4]
  case pos =>
  by_cases h5 : env.sandboxNewOk
  case neg => simp [loadSandboxBody, h1, h2, h3, h4, h5]
  case pos =>
  cases hj : sandboxJoins env m (sandboxNew id name m) with
  | error e => simp [loadSandboxBody, h1, h2, h3, h4, h5, hj]
  | ok sb =>
    cases hadd : AddSandbox env.addSandboxPlatformOk st sb with
    | mk st1 e1 =>
      have hst1 : st1.podNameIndex = st.podNameIndex := by
        have := AddSandbox_pod env.addSandboxPlatformOk st sb
        rw [hadd] at this
        exact this
      cases e1 with
      | some e =>
        simp [loadSandboxBody, h1, h2, h3, h4, h5, hj, hadd]
        exact hst1
      | none =>
        have hBody : loadSandboxBody env st id m name =
            withSandboxRemoved env.removeSandboxPlatformOk sb.id
              (loadSandboxStoreDirs env st1 id m) := by
          simp [loadSandboxBody, h1, h2, h3, h4, h5, hj, hadd]
        rw [hBody, withSandboxRemoved_pod, loadSandboxStoreDirs_pod]
        exact hst1

theorem loadSandboxBody_ctrName (env : LoadEnv) (st : ServerState) (id : String)
    (m : SpecCfg) (name nm : String)
    (hctr : regLookup st.ctrNameIndex nm = none)
    (herr : (loadSandboxBody env st id m name).2.isSome = true) :
    regLookup (loadSandboxBody env st id m name).1.ctrNameIndex nm = none := by
  by_cases h1 : m.metadataOk
  case neg => simp [loadSandboxBody, h1, hctr]
  case pos =>
  by_cases h2 : m.kubeAnnOk
  case neg => simp [loadSandboxBody, h1, h2, hctr]
  case pos =>
  by_cases h3 : m.portMappingsOk
  case neg => simp [loadSandboxBody, h1, h2, h3, hctr]
  case pos =>
  by_cases h4 : m.nsOptsOk
  case neg => simp [loadSandboxBody, h1, h2, h3, h4, hctr]
  case pos =>
  by_cases h5 : env.sandboxNewOk
  case neg => simp [loadSandboxBody, h1, h2, h3, h4, h5, hctr]
  case pos =>
  cases hj : sandboxJoins env m (sandboxNew id name m) with
  | error e => simp [loadSandboxBody, h1, h2, h3, h4, h5, hj, hctr]
  | ok sb =>
    cases hadd : AddSandbox env.addSandboxPlatformOk st sb with
    | mk st1 e1 =>
      have hst1 : st1.ctrNameIndex = st.ctrNameIndex := by
        have := AddSandbox_ctrName env.addSandboxPlatformOk st sb
        rw [hadd] at this
        exact this
      cases e1 with
      | some e =>
        simp [loadSandboxBody, h1, h2, h3, h4, h5, hj, hadd]
        rw [hst1]
        exact hctr
      | none =>
        have hBody : loadSandboxBody env st id m name =
            withSandboxRemoved env.removeSandboxPlatformOk sb.id
              (loadSandboxStoreDirs env st1 id m) := by
          simp [loadSandboxBody, h1, h2, h3, h4, h5, hj, hadd]
        rw [hBody] at herr ⊢
        rw [withSandboxRemoved_snd] at herr
        rw [withSandboxRemoved_ctrName]
        exact loadSandboxStoreDirs_ctrName env st1 id m nm
          (by rw [hst1]; exact hctr) herr

theorem LoadSandbox_ns (env : LoadEnv) (st : ServerState) (id : String) :
    (LoadSandbox env st id).2 ≠ some .nonCrioContainer := by
  by_cases h0 : env.readConfigOk
  case neg => simp [LoadSandbox, h0]
  case pos =>
  cases hm : env.specParse with
  | none => simp [LoadSandbox, h0, hm]
  | some m =>
  by_cases h1 : m.labelsOk
  case neg => simp [LoadSandbox, h0, hm, h1]
  case pos =>
  cases hres : ReservePodName st id m.name with
  | error e =>
    have he := ReservePodName_err hres
    subst he
    simp [LoadSandbox, h0, hm, h1, hres]
  | ok res =>
    have hLS : LoadSandbox env st id =
        withPodNameReleased res.2 (loadSandboxBody env res.1 id m res.2) := by
      simp [LoadSandbox, h0, hm, h1, hres]
    rw [hLS, withPodNameReleased_snd]
    exact loadSandboxBody_ns env res.1 id m res.2

theorem LoadSandbox_noNew (env : LoadEnv) (st : ServerState) (id nm : String)
    (hpod : regLookup st.podNameIndex nm = none)
    (hctr : regLookup st.ctrNameIndex nm = none)
    (herr : (LoadSandbox env st id).2.isSome = true) :
    regLookup (LoadSandbox env st id).1.podNameIndex nm = none
    ∧ regLookup (LoadSandbox env st id).1.ctrNameIndex nm = none := by
  by_cases h0 : env.readConfigOk
  case neg => simp [LoadSandbox, h0, hpod, hctr]
  case pos =>
  cases hm : env.specParse with
  | none => simp [LoadSandbox, h0, hm, hpod, hctr]
  | some m =>
  by_cases h1 : m.labelsOk
  case neg => simp [LoadSandbox, h0, hm, h1, hpod, hctr]
  case pos =>
  cases hres : ReservePodName st id m.name with
  | error e => simp [LoadSandbox, h0, hm, h1, hres, hpod, hctr]
  | ok res =>
    have hok := ReservePodName_ok hres
    have hLS : LoadSandbox env st id =
        withPodNameReleased res.2 (loadSandboxBody env res.1 id m res.2) := by
      simp [LoadSandbox, h0, hm, h1, hres]
    rw [hLS] at herr ⊢
    cases hbody : loadSandboxBody env res.1 id m res.2 with
    | mk st2 e2 =>
      have hpodeq : st2.podNameIndex = res.1.podNameIndex := by
        have := loadSandboxBody_pod env res.1 id m res.2
        rw [hbody] at this
        exact this
      cases e2 with
      | none =>
        rw [hbody] at herr
        simp [withPodNameReleased] at herr
      | some e =>
        constructor
        · show regLookup (regRelease st2.podNameIndex res.2) nm = none
          rw [hpodeq, regLookup_release]
          by_cases hnm : nm = res.2
          · simp [hnm]
          · rw [if_neg hnm]
            have hnm2 : nm ≠ m.name := by rw [← hok.1]; exact hnm
            rw [regReserve_ok_lookup hok.2.1 hnm2]
            exact hpod
        · show regLookup st2.ctrNameIndex nm = none
          have hctr1 : regLookup res.1.ctrNameIndex nm = none := by
            rw [hok.2.2]
            exact hctr
          have := loadSandboxBody_ctrName env res.1 id m res.2 nm hctr1
            (by rw [hbody]; rfl)
          rw [hbody] at this
          exact this

theorem loadContainerBody_ns (env : LoadEnv) (st : ServerState) (id : String)
    (m : SpecCfg) (name : String) :
    (loadContainerBody env st id m name).2 ≠ some .nonCrioContainer := by
  simp only [loadContainerBody]
  repeat' split
  all_goals simp

theorem loadContainerBody_pod (env : LoadEnv) (st : ServerState) (id : String)
    (m : SpecCfg) (name : String) :
    (loadContainerBody env st id m name).1.podNameIndex = st.podNameIndex := by
  simp only [loadContainerBody]
  repeat' split
  all_goals simp [AddContainer_pod]

theorem loadContainerBody_ctrName (env : LoadEnv) (st : ServerState) (id : String)
    (m : SpecCfg) (name : String) :
    (loadContainerBody env st id m name).1.ctrNameIndex = st.ctrNameIndex := by
  simp only [loadContainerBody]
  repeat' split
  all_goals simp [AddContainer_ctrName]

theorem LoadContainer_ns (env : LoadEnv) (st : ServerState) (id : String)
    (m : SpecCfg) (hparse : env.specParse = some m)
    (hnf : isForeignManager m = false) :
    (LoadContainer env st id).2 ≠ some .nonCrioContainer := by
  by_cases h0 : env.readConfigOk
  case neg => simp [LoadContainer, h0]
  case pos =>
  by_cases h1 : m.labelsOk
  case neg => simp [LoadContainer, h0, hparse, hnf, h1]
  case pos =>
  cases hres : ReserveContainerName st id m.name with
  | error e =>
    have he := ReserveContainerName_err hres
    subst he
    simp [LoadContainer, h0, hparse, hnf, h1, hres]
  | ok res =>
    have hLC : LoadContainer env st id =
        withCtrNameReleased res.2 (loadContainerBody env res.1 id m res.2) := by
      simp [LoadContainer, h0, hparse, hnf, h1, hres]
    rw [hLC, withCtrNameReleased_snd]
    exact loadContainerBody_ns env res.1 id m res.2

theorem LoadContainer_noNew (env : LoadEnv) (st : ServerState) (id nm : String)
    (hpod : regLookup st.podNameIndex nm = none)
    (hctr : regLookup st.ctrNameIndex nm = none)
    (herr : (LoadContainer env st id).2.isSome = true) :
    regLookup (LoadContainer env st id).1.podNameIndex nm = none
    ∧ regLookup (LoadContainer env st id).1.ctrNameIndex nm = none := by
  by_cases h0 : env.readConfigOk
  case neg => simp [LoadContainer, h0, hpod, hctr]
  case pos =>
  cases hm : env.specParse with
  | none => simp [LoadContainer, h0, hm, hpod, hctr]
  | some m =>
  by_cases hf : isForeignManager m
  case pos => simp [LoadContainer, h0, hm, hf, hpod, hctr]
  case neg =>
  by_cases h1 : m.labelsOk
  case neg => simp [LoadContainer, h0, hm, hf, h1, hpod, hctr]
  case pos =>
  cases hres : ReserveContainerName st id m.name with
  | error e => simp [LoadContainer, h0, hm, hf, h1, hres, hpod, hctr]
  | ok res =>
    have hok := ReserveContainerName_ok hres
    have hLC : LoadContainer env st id =
        withCtrNameReleased res.2 (loadContainerBody env res.1 id m res.2) := by
      simp [LoadContainer, h0, hm, hf, h1, hres]
    rw [hLC] at herr ⊢
    cases hbody : loadContainerBody env res.1 id m res.2 with
    | mk st2 e2 =>
      have hbpod : st2.podNameIndex = res.1.podNameIndex := by
        have := loadContainerBody_pod env res.1 id m res.2
        rw [hbody] at this
        exact this
      have hbctr : st2.ctrNameIndex = res.1.ctrNameIndex := by
        have := loadContainerBody_ctrName env res.1 id m res.2
        rw [hbody] at this
        exact this
      cases e2 with
      | none =>
        rw [hbody] at herr
        simp [withCtrNameReleased] at herr
      | some e =>
        constructor
        · show regLookup st2.podNameIndex nm = none
          rw [hbpod, hok.2.2]
          exact hpod
        · show regLookup (regRelease st2.ctrNameIndex res.2) nm = none
          rw [hbctr, regLookup_release]
          by_cases hnm : nm = res.2
          · simp [hnm]
          · rw [if_neg hnm]
            have hnm2 : nm ≠ m.name := by rw [← hok.1]; exact hnm
            rw [regReserve_ok_lookup hok.2.1 hnm2]
            exact hctr

/-- C1 counterexample: with an absent manager marker `LoadContainer` does
not stop with the sentinel — it proceeds and adds the container to the
state store; and `LoadSandbox` loads a directory whose marker names a
different manager ("libpod") without any sentinel. -/
theorem load_manager_marker_counterexample :
    mAbsent.manager = none
    ∧ (LoadContainer envOkAbsent stSb "c1").2 = none
    ∧ mapGet (LoadContainer envOkAbsent stSb "c1").1.containers "c1" =
        some { id := "c1", name := "ctr-a", sandbox := "sb1" }
    ∧ mForeign.manager = some "libpod"
    ∧ (LoadSandbox envForeign stSb "sb9").2 = none :=
  ⟨rfl, by decide, by decide, rfl, by decide⟩

/-- C1 amended: `LoadContainer` stops with the sentinel non-managed
result, leaving the state store untouched, exactly when the config.json
manager marker is present and differs from this daemon's identifier; an
absent marker is treated as managed and loading proceeds; `LoadSandbox`
performs no manager-marker check and never produces the sentinel. -/
theorem load_manager_marker (env : LoadEnv) (st : ServerState) (id : String)
    (m : SpecCfg) (v : String)
    (hread : env.readConfigOk = true)
    (hparse : env.specParse = some m)
    (hmgr : m.manager = some v)
    (hne : v ≠ ContainerManagerCRIO) :
    LoadContainer env st id = (st, some .nonCrioContainer)
    ∧ (∀ (env2 : LoadEnv) (st2 : ServerState) (id2 : String) (m2 : SpecCfg),
        env2.specParse = some m2 → isForeignManager m2 = false →
        (LoadContainer env2 st2 id2).2 ≠ some .nonCrioContainer)
    ∧ (∀ (env2 : LoadEnv) (st2 : ServerState) (id2 : String),
        (LoadSandbox env2 st2 id2).2 ≠ some .nonCrioContainer) := by
  refine ⟨?_, fun env2 st2 id2 m2 hp hnf => LoadContainer_ns env2 st2 id2 m2 hp hnf,
    fun env2 st2 id2 => LoadSandbox_ns env2 st2 id2⟩
  have hf : isForeignManager m = true := by
    simp [isForeignManager, hmgr, hne]
  simp [LoadContainer, hread, hparse, hf]

theorem load_manager_marker_witness :
    envForeign.readConfigOk = true
    ∧ mForeign.manager = some "libpod"
    ∧ LoadContainer envForeign stSb "c9" = (stSb, some .nonCrioContainer) :=
  ⟨rfl, rfl,
    (load_manager_marker envForeign stSb "c9" mForeign "libpod" rfl rfl rfl
      (by decide)).1⟩

/-- C2: a failed rehydration never leaves a name reserved: any name that
was unreserved before the call is unreserved after an erroring call, in
both registrars, for both `LoadSandbox` and `LoadContainer`. -/
theorem load_failure_releases_names (env : LoadEnv) (st : ServerState)
    (id nm : String)
    (hpod : regLookup st.podNameIndex nm = none)
    (hctr : regLookup st.ctrNameIndex nm = none) :
    ((LoadSandbox env st id).2.isSome = true →
      regLookup (LoadSandbox env st id).1.podNameIndex nm = none
      ∧ regLookup (LoadSandbox env st id).1.ctrNameIndex nm = none)
    ∧ ((LoadContainer env st id).2.isSome = true →
      regLookup (LoadContainer env st id).1.podNameIndex nm = none
      ∧ regLookup (LoadContainer env st id).1.ctrNameIndex nm = none) :=
  ⟨fun herr => LoadSandbox_noNew env st id nm hpod hctr herr,
   fun herr => LoadContainer_noNew env st id nm hpod hctr herr⟩

theorem load_failure_releases_names_witness :
    regLookup emptyState.podNameIndex "ctr-a" = none
    ∧ (LoadSandbox envMeta emptyState "sb9").2.isSome = true
    ∧ regLookup (LoadSandbox envMeta emptyState "sb9").1.podNameIndex "ctr-a" = none :=
  ⟨rfl, by decide,
    ((load_failure_releases_names envMeta emptyState "sb9" "ctr-a" rfl rfl).1
      (by decide)).1⟩

end Crio
